import Mathlib

/-!
Verification development for the telemetry-pipeline message-queue core.

The definitions below are a shallow embedding of the Go sources:
  - internal/mq/queue.go  (log-based in-memory queue, subscriber registry,
    delivery engine)
  - internal/mq/server.go (framed TCP broker: handleClient, handleSubscribe,
    handleUnsubscribe, the connection cleanup defer)
  - the MQ client (receiveLoop / handleMessage / protocol message types)

Modelling conventions:
  - Go byte slices are `List Nat` (each element a byte value).
  - Go `int64` offsets are `Int`; log lengths are Go slice lengths, so the
    arithmetic here never approaches 2^63 and overflow is immaterial.
  - `uuid.New().String()` and `time.Now()` are nondeterministic inputs; they
    are passed in explicitly as `id` and `now` parameters.
  - Go maps keyed by strings are association lists looked up with
    `List.lookup`; the code always checks for a key before inserting, so key
    uniqueness is maintained exactly as in the source.
  - A Go method that mutates its receiver and returns an `error` becomes a
    function returning `State × Option QErr` (the updated state plus the
    returned error, `none` for a nil error).
  - `Message.Clone` (queue.go) is a deep copy; under value semantics it is
    the identity, so `getMessageAtOffset` returns the stored value directly.
  - Handlers (`MessageHandler`) are modelled as `Message → Bool`, recording
    whether the handler returned a nil error (`true`) or a non-nil error
    (`false`); the delivery loop inspects nothing but logs on error, exactly
    as queue.go lines 342-346.
-/

namespace TelemetryMQ

/-- Sentinel cursor: start reading from the beginning of the log
(queue.go `OffsetEarliest Offset = -2`). -/
def OffsetEarliest : Int := -2

/-- Sentinel cursor: start reading from new messages only
(queue.go `OffsetLatest Offset = -1`). -/
def OffsetLatest : Int := -1

/-- A message in the queue (queue.go `Message`). -/
structure Message where
  ID : String
  Offset : Int
  Payload : List Nat
  Timestamp : Int
  Metadata : List (String × String)
deriving DecidableEq, Repr

/-- queue.go `NewMessage`: fresh message with zero Offset; the uuid and the
wall-clock time are environment inputs. -/
def NewMessage (id : String) (now : Int) (payload : List Nat) : Message :=
  { ID := id, Offset := 0, Payload := payload, Timestamp := now, Metadata := [] }

/-- Per-subscriber registry entry (queue.go `subscriber`): current read
position, delivery handler, and the single-slot notification channel
(`notify : Bool` is "the one-element channel currently holds a token"). -/
structure Subscriber where
  id : String
  offset : Int
  handler : Message → Bool
  notify : Bool

/-- queue.go `InMemoryQueue`: append-only message log, subscriber registry,
running flag, and the published-message counter. -/
structure InMemoryQueue where
  log : List Message
  subscribers : List (String × Subscriber)
  running : Bool
  totalPublished : Int

/-- Errors surfaced by the queue operations used here (queue.go vars). -/
inductive QErr where
  | queueShutdown
  | subscriberExists
  | subscriberNotFound
deriving DecidableEq, Repr

/-- `NewInMemoryQueue` followed by `Start`: empty log, empty registry,
running. -/
def initQueue : InMemoryQueue :=
  { log := [], subscribers := [], running := true, totalPublished := 0 }

/-- queue.go `notifySubscribers`: fill each subscriber's single-slot channel
(if it already holds a token the send is dropped; either way the slot is
full afterwards). -/
def notifySubscribers (subs : List (String × Subscriber)) :
    List (String × Subscriber) :=
  subs.map (fun p => (p.1, { p.2 with notify := true }))

/-- The append step of Publish (queue.go lines 212-216): the message offset
is the log length at insertion and the message goes at the tail. -/
def appendMessage (log : List Message) (id : String) (now : Int)
    (payload : List Nat) : List Message :=
  log ++ [{ NewMessage id now payload with Offset := (log.length : Int) }]

/-- queue.go `Publish`: refuse when shut down, otherwise append one message
offset-stamped with the current log length and notify all subscribers. -/
def Publish (q : InMemoryQueue) (id : String) (now : Int) (payload : List Nat) :
    InMemoryQueue × Option QErr :=
  if q.running then
    ({ q with
        log := appendMessage q.log id now payload,
        subscribers := notifySubscribers q.subscribers,
        totalPublished := q.totalPublished + 1 }, none)
  else
    (q, some .queueShutdown)

/-- The loop body of PublishBatch (queue.go lines 233-237): each payload is
appended with offset equal to the log length at its own insertion. -/
def appendAll (log : List Message) (entries : List (String × Int × List Nat)) :
    List Message :=
  entries.foldl (fun acc e => appendMessage acc e.1 e.2.1 e.2.2) log

/-- queue.go `PublishBatch`: all payloads appended under one critical
section; `entries` carries the per-message environment inputs (id, now,
payload). -/
def PublishBatch (q : InMemoryQueue)
    (entries : List (String × Int × List Nat)) : InMemoryQueue × Option QErr :=
  if q.running then
    ({ q with
        log := appendAll q.log entries,
        subscribers := notifySubscribers q.subscribers,
        totalPublished := q.totalPublished + entries.length }, none)
  else
    (q, some .queueShutdown)

/-- queue.go `resolveOffset`: EARLIEST maps to 0, LATEST to the log length,
and any other value is clamped to [0, len]. -/
def resolveOffset (log : List Message) (offset : Int) : Int :=
  if offset = OffsetEarliest then 0
  else if offset = OffsetLatest then (log.length : Int)
  else if offset < 0 then 0
  else if offset > (log.length : Int) then (log.length : Int)
  else offset

/-- queue.go `Subscribe`: reject an already-registered id before any state
change; otherwise resolve the start cursor, insert the subscriber with an
armed notify slot, and start its consumer fiber. -/
def Subscribe (q : InMemoryQueue) (subscriberID : String) (startOffset : Int)
    (handler : Message → Bool) : InMemoryQueue × Option QErr :=
  if (q.subscribers.lookup subscriberID).isSome then
    (q, some .subscriberExists)
  else
    let actualOffset := resolveOffset q.log startOffset
    ({ q with subscribers := q.subscribers ++
        [(subscriberID,
          { id := subscriberID, offset := actualOffset, handler := handler,
            notify := true })] }, none)

/-- queue.go `Unsubscribe`: NOT_FOUND for an unknown id, otherwise the entry
is removed (its notify channel is closed and the key deleted). -/
def Unsubscribe (q : InMemoryQueue) (subscriberID : String) :
    InMemoryQueue × Option QErr :=
  if (q.subscribers.lookup subscriberID).isSome then
    ({ q with subscribers :=
        q.subscribers.filter (fun p => p.1 != subscriberID) }, none)
  else
    (q, some .subscriberNotFound)

/-- queue.go `SetSubscriberOffset`: NOT_FOUND for an unknown id; otherwise
clamp the requested offset to [0, len], store it, and arm the notify slot. -/
def SetSubscriberOffset (q : InMemoryQueue) (subscriberID : String)
    (offset : Int) : InMemoryQueue × Option QErr :=
  if (q.subscribers.lookup subscriberID).isSome then
    let maxOffset : Int := (q.log.length : Int)
    let clamped := if offset < 0 then 0
      else if offset > maxOffset then maxOffset else offset
    ({ q with subscribers := q.subscribers.map (fun p =>
        if p.1 == subscriberID then
          (p.1, { p.2 with offset := clamped, notify := true })
        else p) }, none)
  else
    (q, some .subscriberNotFound)

/-- queue.go `Shutdown`: clear the running flag (the notify channels are
closed; registry entries themselves are not deleted by Shutdown). -/
def ShutdownQueue (q : InMemoryQueue) : InMemoryQueue :=
  { q with running := false }

/-- queue.go `getMessageAtOffset`: nil for an out-of-range offset, otherwise
a deep copy (value) of the stored message. -/
def getMessageAtOffset (log : List Message) (offset : Int) : Option Message :=
  if h : 0 ≤ offset ∧ offset.toNat < log.length then
    some (log.get ⟨offset.toNat, h.2⟩)
  else
    none

/-- queue.go `processMessages`: drain loop of one subscriber. While the
message at the cursor exists, invoke the handler on it and advance the
cursor by one regardless of the handler outcome. Returns the final cursor
and the ordered list of (message, handler result) deliveries performed. -/
def processMessages (log : List Message) (handlerOk : Message → Bool)
    (cursor : Int) : Int × List (Message × Bool) :=
  match hm : getMessageAtOffset log cursor with
  | none => (cursor, [])
  | some msg =>
    let result := handlerOk msg
    let r := processMessages log handlerOk (cursor + 1)
    (r.1, (msg, result) :: r.2)
termination_by log.length - cursor.toNat
decreasing_by
  unfold getMessageAtOffset at hm
  split at hm
  · omega
  · exact absurd hm (by simp)

/-! ### Queue operation sequences (for the log invariants) -/

/-- One external queue operation (the mutating methods of queue.go). -/
inductive QueueOp where
  | publish (id : String) (now : Int) (payload : List Nat)
  | publishBatch (entries : List (String × Int × List Nat))
  | subscribe (subscriberID : String) (start : Int) (handler : Message → Bool)
  | unsubscribe (subscriberID : String)
  | setOffset (subscriberID : String) (offset : Int)
  | shutdown

/-- Apply one queue operation, keeping the updated state. -/
def applyOp (q : InMemoryQueue) : QueueOp → InMemoryQueue
  | .publish id now p => (Publish q id now p).1
  | .publishBatch es => (PublishBatch q es).1
  | .subscribe sid st h => (Subscribe q sid st h).1
  | .unsubscribe sid => (Unsubscribe q sid).1
  | .setOffset sid off => (SetSubscriberOffset q sid off).1
  | .shutdown => ShutdownQueue q

/-- Run a sequence of queue operations from the freshly started queue. -/
def runOps (ops : List QueueOp) : InMemoryQueue :=
  ops.foldl applyOp initQueue

/-- Well-formed log: the message stored at index k carries Offset k
(spec invariant 1, maintained by Publish / PublishBatch). -/
def LogWF (log : List Message) : Prop :=
  log.map Message.Offset = (List.range log.length).map (fun n : Nat => (n : Int))

instance (log : List Message) : Decidable (LogWF log) := by
  unfold LogWF; infer_instance

/-! ### Single-subscriber delivery sessions (consumeLoop semantics) -/

/-- State of one subscriber session: the broker log, the subscriber's
cursor, and what has been delivered to its handler so far. -/
structure Session where
  log : List Message
  cursor : Int
  delivered : List Message

/-- An event visible to one subscriber session: a producer append
(Publish; the wake-up it triggers is coalesced into the next drain) or a
drain pass of the subscriber's consumer fiber (consumeLoop waking on its
notify slot and running processMessages). -/
inductive SessionEvent where
  | append (id : String) (now : Int) (payload : List Nat)
  | drain

/-- One session step. Appends grow the log exactly as Publish does; a drain
runs processMessages from the current cursor and records the messages
handed to the handler, in order. -/
def sessionStep (handlerOk : Message → Bool) (st : Session) :
    SessionEvent → Session
  | .append id now p => { st with log := appendMessage st.log id now p }
  | .drain =>
    let r := processMessages st.log handlerOk st.cursor
    { log := st.log, cursor := r.1,
      delivered := st.delivered ++ r.2.map Prod.fst }

/-- Run a session from an initial state through a list of events. -/
def runSession (handlerOk : Message → Bool) (init : Session)
    (evs : List SessionEvent) : Session :=
  evs.foldl (sessionStep handlerOk) init

/-- Session start: Subscribe resolves the requested cursor against the
current log (queue.go Subscribe line 272). -/
def initSession (log0 : List Message) (start : Int) : Session :=
  { log := log0, cursor := resolveOffset log0 start, delivered := [] }

/-! ### Broker TCP server (server.go) -/

/-- Wire-level protocol message after JSON decoding (client.go
`ProtocolMessage`). A `subscribe` frame whose JSON omits the offset field
decodes to offset 0, indistinguishable from an explicit zero. -/
structure ProtocolMessage where
  type : String
  subscriberID : String
  messageID : String
  offset : Int
  payload : List Nat
  error : String
  success : Bool
deriving DecidableEq, Repr

/-- Per-connection state on the broker (server.go `clientState`). -/
structure ClientState where
  subscriberID : String
  subscribed : Bool
deriving DecidableEq, Repr

/-- Broker server state: the queue plus the connection map (connections
identified by an abstract id standing for the net.Conn). -/
structure ServerState where
  queue : InMemoryQueue
  clients : List (Nat × ClientState)

/-- Outcome of one iteration of the handleClient read loop (server.go
lines 203-243) on the connection's incoming byte stream. -/
inductive ClientStep where
  | closeConn
  | skip (rest : List Nat)
  | dispatch (msg : ProtocolMessage) (rest : List Nat)
deriving DecidableEq, Repr

/-- One iteration of handleClient: read the 4-byte big-endian length header;
if the declared length exceeds 10 MiB, log and continue the loop WITHOUT
consuming the frame body (server.go lines 222-226); otherwise read the body,
skip it if the JSON does not decode, and dispatch the decoded message.
Returning `closeConn` models the `return` paths, whose deferred cleanup
closes the connection. JSON decoding is abstracted as `decode`. -/
def handleClientStep (decode : List Nat → Option ProtocolMessage)
    (stream : List Nat) : ClientStep :=
  match stream with
  | b0 :: b1 :: b2 :: b3 :: rest =>
    let length := b0 * 2 ^ 24 + b1 * 2 ^ 16 + b2 * 2 ^ 8 + b3
    if length > 10 * 1024 * 1024 then
      ClientStep.skip rest
    else if rest.length < length then
      ClientStep.closeConn
    else
      match decode (rest.take length) with
      | none => ClientStep.skip (rest.drop length)
      | some msg => ClientStep.dispatch msg (rest.drop length)
  | _ => ClientStep.closeConn

/-- The cleanup defer of handleClient (server.go lines 193-198): remove
the connection from the clients map and close the socket. The queue and
its subscriber registry are not touched. -/
def handleClientCleanup (s : ServerState) (conn : Nat) : ServerState :=
  { s with clients := s.clients.filter (fun p => p.1 != conn) }

/-- Start-offset computation of handleSubscribe (server.go lines 292-296):
a zero frame offset is replaced by OffsetLatest, any other value is used
verbatim. -/
def subscribeStartOffset (msgOffset : Int) : Int :=
  if msgOffset = 0 then OffsetLatest else msgOffset

/-- server.go `handleSubscribe`: look up the connection, default an empty
subscriber id to the remote address, map a zero offset to LATEST, register
with the queue, and on success mark the connection subscribed. Returns the
new state and whether a success response was sent. `connHandler` stands for
the closure that forwards delivered messages onto this connection. -/
def handleSubscribe (s : ServerState) (conn : Nat) (remoteAddr : String)
    (msg : ProtocolMessage) (connHandler : Message → Bool) :
    ServerState × Bool :=
  match s.clients.lookup conn with
  | none => (s, false)
  | some _ =>
    let subscriberID :=
      if msg.subscriberID = "" then remoteAddr else msg.subscriberID
    let startOffset := subscribeStartOffset msg.offset
    let r := Subscribe s.queue subscriberID startOffset connHandler
    match r.2 with
    | some _ => ({ s with queue := r.1 }, false)
    | none =>
      ({ queue := r.1,
         clients := s.clients.map (fun p =>
           if p.1 == conn then
             (p.1, { subscriberID := subscriberID, subscribed := true })
           else p) }, true)

/-- server.go `handleUnsubscribe`: take the connection's saved subscriber id
(falling back to the frame's id when empty), clear the subscribed flag, and
remove the subscriber from the queue registry. Returns the new state and
whether a success response was sent. -/
def handleUnsubscribe (s : ServerState) (conn : Nat) (msg : ProtocolMessage) :
    ServerState × Bool :=
  match s.clients.lookup conn with
  | none => (s, false)
  | some client =>
    let clients := s.clients.map (fun p =>
      if p.1 == conn then (p.1, { p.2 with subscribed := false }) else p)
    let subscriberID :=
      if client.subscriberID = "" then msg.subscriberID
      else client.subscriberID
    let r := Unsubscribe s.queue subscriberID
    match r.2 with
    | some _ => ({ queue := r.1, clients := clients }, false)
    | none => ({ queue := r.1, clients := clients }, true)

/-! ### MQ client (client source: Client.handleMessage) -/

/-- MQ client message-type constant for broker-to-client deliveries. -/
def MsgTypeMessage : String := "message"

/-- Client.handleMessage: for a `message` frame the Message handed to the
application handler is built from the frame's message-id and payload only;
Offset is left at its zero value and Timestamp is time.Now() at receipt
(`now`). Frames of any other type hand nothing to the handler. -/
def clientHandleMessage (now : Int) (msg : ProtocolMessage) : Option Message :=
  if msg.type = MsgTypeMessage then
    some { ID := msg.messageID, Offset := 0, Payload := msg.payload,
           Timestamp := now, Metadata := [] }
  else
    none

/-! ### Basic lemmas about the delivery primitives -/

/-- A successful read at a cursor pins the cursor inside the log. -/
theorem getMessageAtOffset_bounds {log : List Message} {c : Int} {m : Message}
    (h : getMessageAtOffset log c = some m) :
    0 ≤ c ∧ c.toNat < log.length := by
  unfold getMessageAtOffset at h
  split at h
  · next hc => exact hc
  · exact absurd h (by simp)

/-- In-range reads return the stored message. -/
theorem getMessageAtOffset_of_lt {log : List Message} {c : Int}
    (hc : 0 ≤ c) (hlt : c.toNat < log.length) :
    getMessageAtOffset log c = some (log.get ⟨c.toNat, hlt⟩) := by
  unfold getMessageAtOffset
  rw [dif_pos ⟨hc, hlt⟩]

/-- Out-of-range reads return nothing. -/
theorem getMessageAtOffset_none {log : List Message} {c : Int}
    (h : ¬(0 ≤ c ∧ c.toNat < log.length)) :
    getMessageAtOffset log c = none := by
  unfold getMessageAtOffset
  rw [dif_neg h]

/-- Reading back the offset assigned by an append returns the appended
message. -/
theorem getMessageAtOffset_concat (log : List Message) (m : Message) :
    getMessageAtOffset (log ++ [m]) (log.length : Int) = some m := by
  have h0 : ((log.length : Int)).toNat = log.length := Int.toNat_natCast _
  have hlt : ((log.length : Int)).toNat < (log ++ [m]).length := by
    simp [h0]
  rw [getMessageAtOffset_of_lt (Int.natCast_nonneg _) hlt]
  congr 1
  exact List.getElem_concat_length log m _ h0 hlt

/-- The drain loop with an exhausted or invalid cursor does nothing. -/
theorem processMessages_stop {log : List Message} {handlerOk : Message → Bool}
    {c : Int} (h : ¬(0 ≤ c ∧ c.toNat < log.length)) :
    processMessages log handlerOk c = (c, []) := by
  rw [processMessages.eq_def]
  split
  · rfl
  · next m hm => exact absurd (getMessageAtOffset_bounds hm) h

/-- The drain loop from a valid cursor delivers every remaining log entry,
in order, and leaves the cursor at the log length. -/
theorem processMessages_drain (log : List Message) (handlerOk : Message → Bool)
    (c : Int) (hc : 0 ≤ c) (hle : c.toNat ≤ log.length) :
    processMessages log handlerOk c =
      ((log.length : Int),
        (log.drop c.toNat).map (fun m => (m, handlerOk m))) := by
  have key : ∀ (n : Nat) (c : Int), 0 ≤ c → c.toNat ≤ log.length →
      log.length - c.toNat = n →
      processMessages log handlerOk c =
        ((log.length : Int),
          (log.drop c.toNat).map (fun m => (m, handlerOk m))) := by
    intro n
    induction n with
    | zero =>
      intro c hc hle hn
      have hceq : c.toNat = log.length := by omega
      rw [processMessages_stop (by omega)]
      have hcv : c = (log.length : Int) := by omega
      rw [hceq, List.drop_length, hcv]
      rfl
    | succ n ih =>
      intro c hc hle hn
      have hlt : c.toNat < log.length := by omega
      rw [processMessages.eq_def]
      split
      · next hm =>
        rw [getMessageAtOffset_of_lt hc hlt] at hm
        exact absurd hm (by simp)
      · next m hm =>
        rw [getMessageAtOffset_of_lt hc hlt] at hm
        have hmv : m = log.get ⟨c.toNat, hlt⟩ := (Option.some.inj hm).symm
        subst hmv
        rw [ih (c + 1) (by omega) (by omega) (by omega)]
        rw [show (c + 1).toNat = c.toNat + 1 by omega]
        rw [List.drop_eq_getElem_cons hlt, List.map_cons]
        rfl
  exact key _ c hc hle rfl

/-- The cursor trajectory and the messages handed over by a drain do not
depend on the handler's results. -/
theorem processMessages_handler_indep (log : List Message)
    (f g : Message → Bool) (c : Int) :
    (processMessages log f c).1 = (processMessages log g c).1 ∧
    (processMessages log f c).2.map Prod.fst =
      (processMessages log g c).2.map Prod.fst := by
  by_cases h : 0 ≤ c ∧ c.toNat < log.length
  · rw [processMessages_drain log f c h.1 (le_of_lt h.2),
      processMessages_drain log g c h.1 (le_of_lt h.2)]
    constructor
    · rfl
    · simp only [List.map_map]
      congr 1
  · rw [processMessages_stop h, processMessages_stop h]
    exact ⟨rfl, rfl⟩

/-! ### The append-only log invariant -/

/-- Appending a message stamped with the current length preserves
well-formedness. -/
theorem logWF_concat {log : List Message} (h : LogWF log) (m : Message)
    (hm : m.Offset = (log.length : Int)) : LogWF (log ++ [m]) := by
  unfold LogWF at *
  rw [List.map_append, h, List.length_append]
  simp only [List.map_cons, List.map_nil, List.length_cons, List.length_nil,
    Nat.zero_add, List.range_succ, List.map_append, hm]

/-- Appending with Publish's offset stamping preserves well-formedness. -/
theorem logWF_append (log : List Message) (id : String) (now : Int)
    (p : List Nat) (h : LogWF log) : LogWF (appendMessage log id now p) :=
  logWF_concat h _ rfl

/-- The PublishBatch loop preserves well-formedness. -/
theorem logWF_appendAll (entries : List (String × Int × List Nat)) :
    ∀ log : List Message, LogWF log → LogWF (appendAll log entries) := by
  induction entries with
  | nil => intro log h; exact h
  | cons e es ih =>
    intro log h
    have hstep : appendAll log (e :: es) =
        appendAll (appendMessage log e.1 e.2.1 e.2.2) es := rfl
    rw [hstep]
    exact ih _ (logWF_append _ _ _ _ h)

/-- The PublishBatch loop only extends the log at the tail. -/
theorem appendAll_extend (entries : List (String × Int × List Nat)) :
    ∀ log : List Message, ∃ tail, appendAll log entries = log ++ tail := by
  induction entries with
  | nil => intro log; exact ⟨[], by simp [appendAll]⟩
  | cons e es ih =>
    intro log
    obtain ⟨t, ht⟩ := ih (appendMessage log e.1 e.2.1 e.2.2)
    refine ⟨{ NewMessage e.1 e.2.1 e.2.2 with
      Offset := (log.length : Int) } :: t, ?_⟩
    have hstep : appendAll log (e :: es) =
        appendAll (appendMessage log e.1 e.2.1 e.2.2) es := rfl
    rw [hstep, ht]
    simp [appendMessage]

/-- No queue operation removes or reorders existing log entries. -/
theorem applyOp_log_extend (q : InMemoryQueue) (op : QueueOp) :
    ∃ tail, (applyOp q op).log = q.log ++ tail := by
  cases op with
  | publish id now p =>
    by_cases hr : q.running
    · refine ⟨[{ NewMessage id now p with Offset := (q.log.length : Int) }], ?_⟩
      simp [applyOp, Publish, hr, appendMessage]
    · exact ⟨[], by simp [applyOp, Publish, hr]⟩
  | publishBatch es =>
    by_cases hr : q.running
    · obtain ⟨t, ht⟩ := appendAll_extend es q.log
      exact ⟨t, by simp [applyOp, PublishBatch, hr, ht]⟩
    · exact ⟨[], by simp [applyOp, PublishBatch, hr]⟩
  | subscribe sid st h =>
    refine ⟨[], ?_⟩
    simp only [applyOp, List.append_nil]
    unfold Subscribe
    split <;> rfl
  | unsubscribe sid =>
    refine ⟨[], ?_⟩
    simp only [applyOp, List.append_nil]
    unfold Unsubscribe
    split <;> rfl
  | setOffset sid off =>
    refine ⟨[], ?_⟩
    simp only [applyOp, List.append_nil]
    unfold SetSubscriberOffset
    split <;> rfl
  | shutdown => exact ⟨[], by simp [applyOp, ShutdownQueue]⟩

/-- Every queue operation preserves the dense-offset invariant. -/
theorem applyOp_logWF (q : InMemoryQueue) (op : QueueOp) (h : LogWF q.log) :
    LogWF (applyOp q op).log := by
  cases op with
  | publish id now p =>
    by_cases hr : q.running
    · simpa [applyOp, Publish, hr] using logWF_append q.log id now p h
    · simpa [applyOp, Publish, hr] using h
  | publishBatch es =>
    by_cases hr : q.running
    · simpa [applyOp, PublishBatch, hr] using logWF_appendAll es q.log h
    · simpa [applyOp, PublishBatch, hr] using h
  | subscribe sid st hd =>
    have hlog : (applyOp q (QueueOp.subscribe sid st hd)).log = q.log := by
      simp only [applyOp]
      unfold Subscribe
      split <;> rfl
    rw [hlog]; exact h
  | unsubscribe sid =>
    have hlog : (applyOp q (QueueOp.unsubscribe sid)).log = q.log := by
      simp only [applyOp]
      unfold Unsubscribe
      split <;> rfl
    rw [hlog]; exact h
  | setOffset sid off =>
    have hlog : (applyOp q (QueueOp.setOffset sid off)).log = q.log := by
      simp only [applyOp]
      unfold SetSubscriberOffset
      split <;> rfl
    rw [hlog]; exact h
  | shutdown => simpa [applyOp, ShutdownQueue] using h

/-- Every state reachable by queue operations has a well-formed log. -/
theorem runOps_logWF (ops : List QueueOp) : LogWF (runOps ops).log := by
  have key : ∀ (l : List QueueOp) (q : InMemoryQueue), LogWF q.log →
      LogWF (l.foldl applyOp q).log := by
    intro l
    induction l with
    | nil => intro q h; exact h
    | cons o os ih =>
      intro q h
      exact ih _ (applyOp_logWF _ _ h)
  exact key ops initQueue (by rfl)

/-- Pointwise reading of the dense-offset invariant. -/
theorem LogWF.offset_at {log : List Message} (h : LogWF log) (k : Nat)
    (hk : k < log.length) : (log.get ⟨k, hk⟩).Offset = (k : Int) := by
  have h0 := congrArg (fun l => l[k]?) h
  simp only [List.getElem?_map] at h0
  rw [List.getElem?_eq_getElem hk,
    List.getElem?_eq_getElem (by simpa using hk)] at h0
  simp only [Option.map_some', List.getElem_range] at h0
  exact Option.some.inj h0

/-! ### Session invariant for a single subscriber -/

/-- Bounds of resolveOffset: the resolved cursor is never negative. -/
theorem resolveOffset_nonneg (log : List Message) (start : Int) :
    0 ≤ resolveOffset log start := by
  unfold resolveOffset OffsetEarliest OffsetLatest
  split_ifs <;> omega

/-- Bounds of resolveOffset: the resolved cursor never exceeds the log
length. -/
theorem resolveOffset_le (log : List Message) (start : Int) :
    resolveOffset log start ≤ (log.length : Int) := by
  unfold resolveOffset OffsetEarliest OffsetLatest
  split_ifs <;> omega

/-- Invariant of a single subscriber session that started at resolved
cursor `s0`: the cursor stays within `[s0, len]`, the log remains
well-formed, and the delivered messages so far are exactly the log segment
`[s0, cursor)`. -/
structure SessionInv (s0 : Int) (st : Session) : Prop where
  s0_nonneg : 0 ≤ s0
  s0_le : s0 ≤ st.cursor
  cursor_le : st.cursor.toNat ≤ st.log.length
  wf : LogWF st.log
  delivered_eq : st.delivered = (st.log.take st.cursor.toNat).drop s0.toNat

/-- Splicing a drained segment: delivering the backlog `[c, len)` after the
already-delivered `[s0, c)` yields exactly `[s0, len)`. -/
theorem take_drop_splice (log : List Message) (s0 c : Nat) (hs : s0 ≤ c)
    (hc : c ≤ log.length) :
    (log.take c).drop s0 ++ log.drop c = log.drop s0 := by
  conv_rhs => rw [← List.take_append_drop c log]
  rw [List.drop_append_of_le_length]
  rw [List.length_take]
  omega

/-- Every session event preserves the session invariant. -/
theorem sessionInv_step (handlerOk : Message → Bool) (s0 : Int) (st : Session)
    (inv : SessionInv s0 st) (ev : SessionEvent) :
    SessionInv s0 (sessionStep handlerOk st ev) := by
  cases ev with
  | append id now p =>
    refine ⟨inv.s0_nonneg, inv.s0_le, ?_, ?_, ?_⟩
    · have : (appendMessage st.log id now p).length = st.log.length + 1 := by
        simp [appendMessage]
      simp only [sessionStep, this]
      have := inv.cursor_le
      omega
    · exact logWF_append _ _ _ _ inv.wf
    · show st.delivered =
        ((appendMessage st.log id now p).take st.cursor.toNat).drop s0.toNat
      unfold appendMessage
      rw [List.take_append_of_le_length inv.cursor_le]
      exact inv.delivered_eq
  | drain =>
    have hc0 : 0 ≤ st.cursor := le_trans inv.s0_nonneg inv.s0_le
    have hd := processMessages_drain st.log handlerOk st.cursor hc0 inv.cursor_le
    constructor
    · exact inv.s0_nonneg
    · show s0 ≤ (processMessages st.log handlerOk st.cursor).1
      rw [hd]
      have := inv.s0_le
      have := inv.cursor_le
      omega
    · show (processMessages st.log handlerOk st.cursor).1.toNat ≤ st.log.length
      rw [hd]
      omega
    · exact inv.wf
    · show st.delivered ++ (processMessages st.log handlerOk st.cursor).2.map Prod.fst =
        (st.log.take (processMessages st.log handlerOk st.cursor).1.toNat).drop s0.toNat
      rw [hd]
      simp only [Int.toNat_natCast, List.take_length, List.map_map]
      have hfst : List.map (Prod.fst ∘ fun m => (m, handlerOk m))
          (st.log.drop st.cursor.toNat) = st.log.drop st.cursor.toNat := by
        simp [Function.comp_def]
      rw [hfst, inv.delivered_eq]
      exact take_drop_splice st.log s0.toNat st.cursor.toNat
        (by have := inv.s0_le; omega) inv.cursor_le

/-- The session invariant holds along any event sequence. -/
theorem sessionInv_run (handlerOk : Message → Bool) (s0 : Int)
    (evs : List SessionEvent) (st : Session) (inv : SessionInv s0 st) :
    SessionInv s0 (runSession handlerOk st evs) := by
  induction evs generalizing st with
  | nil => exact inv
  | cons e es ih => exact ih _ (sessionInv_step handlerOk s0 st inv e)

/-- The initial session state satisfies the invariant when the initial log
is well-formed. -/
theorem sessionInv_init (log0 : List Message) (hWF : LogWF log0)
    (start : Int) : SessionInv (resolveOffset log0 start)
      (initSession log0 start) := by
  have h0 := resolveOffset_nonneg log0 start
  have h1 := resolveOffset_le log0 start
  refine ⟨h0, le_refl _, by simp [initSession]; omega, hWF, ?_⟩
  show ([] : List Message) =
    (log0.take (resolveOffset log0 start).toNat).drop (resolveOffset log0 start).toNat
  rw [eq_comm, List.drop_eq_nil_iff, List.length_take]
  omega

/-! ### Claim theorems -/

/-- C1: for every subscriber session registered via Subscribe with a start
cursor that resolves to offset s0, the delivery engine invokes the handler
on messages with offsets exactly s0, s0+1, s0+2, ... in strictly
increasing, contiguous order, with no gaps and no duplicates, for as long
as the session runs (any interleaving of appends and drain wake-ups). -/
theorem C1_subscriber_session_contiguous (log0 : List Message)
    (hWF : LogWF log0) (start : Int) (handlerOk : Message → Bool)
    (evs : List SessionEvent) :
    (runSession handlerOk (initSession log0 start) evs).delivered.length =
      (runSession handlerOk (initSession log0 start) evs).cursor.toNat -
        (resolveOffset log0 start).toNat ∧
    ∀ i : Nat,
      i < (runSession handlerOk (initSession log0 start) evs).delivered.length →
      ((runSession handlerOk (initSession log0 start) evs).delivered[i]?.map
        Message.Offset) = some (resolveOffset log0 start + (i : Int)) := by
  have inv := sessionInv_run handlerOk (resolveOffset log0 start) evs _
    (sessionInv_init log0 hWF start)
  set fin := runSession handlerOk (initSession log0 start) evs with hfin
  set s0 := resolveOffset log0 start with hs0
  have hs0n := inv.s0_nonneg
  have hsle := inv.s0_le
  have hcle := inv.cursor_le
  have hlen : fin.delivered.length = fin.cursor.toNat - s0.toNat := by
    rw [inv.delivered_eq, List.length_drop, List.length_take]
    omega
  refine ⟨hlen, ?_⟩
  intro i hi
  have hb : s0.toNat + i < fin.log.length := by omega
  have htb : i < ((fin.log.take fin.cursor.toNat).drop s0.toNat).length := by
    rw [List.length_drop, List.length_take]
    omega
  have hget : fin.delivered[i] = fin.log[s0.toNat + i] := by
    rw [List.getElem_of_eq inv.delivered_eq hi, List.getElem_drop,
      List.getElem_take]
  rw [List.getElem?_eq_getElem hi, Option.map_some', hget]
  have hoff := inv.wf.offset_at (s0.toNat + i) hb
  rw [show fin.log.get ⟨s0.toNat + i, hb⟩ = fin.log[s0.toNat + i] from rfl]
    at hoff
  rw [hoff]
  congr 1
  omega

/-- Witness for C1 at a concrete session: empty initial log, EARLIEST
start, two appends each followed by a drain. -/
theorem C1_subscriber_session_contiguous_witness :
    LogWF ([] : List Message) ∧
    ((runSession (fun _ => true) (initSession [] (-2))
        [SessionEvent.append "a" 0 [1], SessionEvent.drain,
         SessionEvent.append "b" 1 [2], SessionEvent.drain]).delivered.length =
      (runSession (fun _ => true) (initSession [] (-2))
        [SessionEvent.append "a" 0 [1], SessionEvent.drain,
         SessionEvent.append "b" 1 [2], SessionEvent.drain]).cursor.toNat -
        (resolveOffset [] (-2)).toNat ∧
    ∀ i : Nat,
      i < (runSession (fun _ => true) (initSession [] (-2))
        [SessionEvent.append "a" 0 [1], SessionEvent.drain,
         SessionEvent.append "b" 1 [2], SessionEvent.drain]).delivered.length →
      ((runSession (fun _ => true) (initSession [] (-2))
        [SessionEvent.append "a" 0 [1], SessionEvent.drain,
         SessionEvent.append "b" 1 [2], SessionEvent.drain]).delivered[i]?.map
        Message.Offset) = some (resolveOffset [] (-2) + (i : Int))) :=
  ⟨by decide, C1_subscriber_session_contiguous [] (by decide) (-2)
    (fun _ => true)
    [SessionEvent.append "a" 0 [1], SessionEvent.drain,
     SessionEvent.append "b" 1 [2], SessionEvent.drain]⟩

/-- C5: in the per-subscriber drain loop, after the handler is invoked on
the message at the current cursor the loop continues from cursor + 1
regardless of the handler's result; in particular the final cursor and the
sequence of delivered messages are the same for any handler, so a handler
failure never blocks or repeats delivery of that offset. -/
theorem C5_cursor_advance_regardless (log : List Message)
    (handlerOk : Message → Bool) (cursor : Int) (m : Message)
    (hm : getMessageAtOffset log cursor = some m) :
    processMessages log handlerOk cursor =
      ((processMessages log handlerOk (cursor + 1)).1,
        (m, handlerOk m) :: (processMessages log handlerOk (cursor + 1)).2) ∧
    ∀ g : Message → Bool,
      (processMessages log g cursor).1 =
        (processMessages log handlerOk cursor).1 ∧
      (processMessages log g cursor).2.map Prod.fst =
        (processMessages log handlerOk cursor).2.map Prod.fst := by
  constructor
  · conv_lhs => rw [processMessages.eq_def]
    split
    · next hnone => rw [hnone] at hm; exact absurd hm (by simp)
    · next m' hm' =>
      rw [hm'] at hm
      rw [Option.some.inj hm]
  · intro g
    exact processMessages_handler_indep log g handlerOk cursor

/-- A concrete one-entry log used to witness C5. -/
def exampleMsgC5 : Message :=
  { ID := "m", Offset := 0, Payload := [9], Timestamp := 0, Metadata := [] }

/-- Witness for C5: a one-message log drained from cursor 0 by an
always-failing handler. -/
theorem C5_cursor_advance_regardless_witness :
    getMessageAtOffset [exampleMsgC5] 0 = some exampleMsgC5 ∧
    (processMessages [exampleMsgC5] (fun _ => false) 0 =
      ((processMessages [exampleMsgC5] (fun _ => false) (0 + 1)).1,
        (exampleMsgC5, false) ::
          (processMessages [exampleMsgC5] (fun _ => false) (0 + 1)).2) ∧
    ∀ g : Message → Bool,
      (processMessages [exampleMsgC5] g 0).1 =
        (processMessages [exampleMsgC5] (fun _ => false) 0).1 ∧
      (processMessages [exampleMsgC5] g 0).2.map Prod.fst =
        (processMessages [exampleMsgC5] (fun _ => false) 0).2.map Prod.fst) :=
  ⟨rfl, C5_cursor_advance_regardless [exampleMsgC5] (fun _ => false) 0
    exampleMsgC5 rfl⟩

/-- C6: resolving a cursor against a log of length len yields 0 for
EARLIEST, len for LATEST, and clamp(c, 0, len) for any other integer; in
particular LATEST on an empty log resolves to 0. -/
theorem C6_resolve_cursor_spec (log : List Message) (c : Int)
    (h1 : c ≠ OffsetEarliest) (h2 : c ≠ OffsetLatest) :
    resolveOffset log OffsetEarliest = 0 ∧
    resolveOffset log OffsetLatest = (log.length : Int) ∧
    resolveOffset log c = max 0 (min c (log.length : Int)) ∧
    resolveOffset ([] : List Message) OffsetLatest = 0 := by
  refine ⟨?_, ?_, ?_, rfl⟩
  · unfold resolveOffset
    rw [if_pos rfl]
  · unfold resolveOffset OffsetEarliest OffsetLatest
    norm_num
  · unfold resolveOffset
    rw [if_neg h1, if_neg h2]
    split_ifs <;> omega

/-- Witness for C6 at log = [] and c = 5. -/
theorem C6_resolve_cursor_spec_witness :
    (5 : Int) ≠ OffsetEarliest ∧ (5 : Int) ≠ OffsetLatest ∧
    (resolveOffset ([] : List Message) OffsetEarliest = 0 ∧
    resolveOffset ([] : List Message) OffsetLatest =
      ((List.length ([] : List Message) : Nat) : Int) ∧
    resolveOffset ([] : List Message) 5 =
      max 0 (min 5 ((List.length ([] : List Message) : Nat) : Int)) ∧
    resolveOffset ([] : List Message) OffsetLatest = 0) :=
  ⟨by decide, by decide,
    C6_resolve_cursor_spec [] 5 (by decide) (by decide)⟩

/-- C7: Subscribe on an already-registered id fails with the
subscriber-already-exists error and returns the queue state entirely
unchanged, so the existing subscriber's cursor, handler and notification
slot are untouched. -/
theorem C7_duplicate_subscribe_unchanged (q : InMemoryQueue)
    (subscriberID : String) (startOffset : Int) (handler : Message → Bool)
    (h : (q.subscribers.lookup subscriberID).isSome = true) :
    Subscribe q subscriberID startOffset handler =
      (q, some QErr.subscriberExists) := by
  unfold Subscribe
  rw [if_pos h]

/-- A concrete queue already holding subscriber c1, used to witness C7. -/
def exampleQueueC7 : InMemoryQueue :=
  { log := [],
    subscribers :=
      [("c1",
        { id := "c1", offset := 0, handler := fun _ => true, notify := false })],
    running := true, totalPublished := 0 }

/-- Witness for C7: duplicate subscribe on the concrete queue. -/
theorem C7_duplicate_subscribe_unchanged_witness :
    (exampleQueueC7.subscribers.lookup "c1").isSome = true ∧
    Subscribe exampleQueueC7 "c1" 7 (fun _ => false) =
      (exampleQueueC7, some QErr.subscriberExists) :=
  ⟨rfl, C7_duplicate_subscribe_unchanged exampleQueueC7 "c1" 7
    (fun _ => false) rfl⟩

/-- C8: after any sequence of queue operations (Publish and PublishBatch
included), the message stored at every index k of the log carries Offset
k — offsets are dense and strictly increasing — and no operation ever
removes or reorders existing entries: each step only appends at the tail. -/
theorem C8_offsets_dense_append_only (ops : List QueueOp) (k : Nat)
    (hk : k < (runOps ops).log.length) :
    ((runOps ops).log[k]?.map Message.Offset) = some ((k : Nat) : Int) ∧
    ∀ op : QueueOp, ∃ tail,
      (applyOp (runOps ops) op).log = (runOps ops).log ++ tail := by
  constructor
  · rw [List.getElem?_eq_getElem hk, Option.map_some']
    exact congrArg some ((runOps_logWF ops).offset_at k hk)
  · intro op
    exact applyOp_log_extend (runOps ops) op

/-- Witness for C8 after two publishes: the entry at index 1 carries
offset 1. -/
theorem C8_offsets_dense_append_only_witness :
    1 < (runOps [QueueOp.publish "a" 0 [1],
      QueueOp.publish "b" 1 [2]]).log.length ∧
    (((runOps [QueueOp.publish "a" 0 [1],
        QueueOp.publish "b" 1 [2]]).log[1]?.map Message.Offset) =
      some ((1 : Nat) : Int) ∧
    ∀ op : QueueOp, ∃ tail,
      (applyOp (runOps [QueueOp.publish "a" 0 [1],
        QueueOp.publish "b" 1 [2]]) op).log =
      (runOps [QueueOp.publish "a" 0 [1],
        QueueOp.publish "b" 1 [2]]).log ++ tail) :=
  ⟨by decide, C8_offsets_dense_append_only
    [QueueOp.publish "a" 0 [1], QueueOp.publish "b" 1 [2]] 1 (by decide)⟩

/-- C9: publishing payload p on a running queue assigns the message the
offset len (the log length at insertion) and the supplied message id, and
reading that offset back returns a message whose payload equals p
byte-for-byte and whose id, offset and timestamp are those assigned at
insertion. -/
theorem C9_publish_at_roundtrip (q : InMemoryQueue) (id : String) (now : Int)
    (p : List Nat) (hrun : q.running = true) :
    (Publish q id now p).2 = none ∧
    getMessageAtOffset (Publish q id now p).1.log (q.log.length : Int) =
      some { ID := id, Offset := (q.log.length : Int), Payload := p,
             Timestamp := now, Metadata := [] } := by
  constructor
  · simp [Publish, hrun]
  · have hlog : (Publish q id now p).1.log = appendMessage q.log id now p := by
      simp [Publish, hrun]
    rw [hlog]
    unfold appendMessage
    rw [getMessageAtOffset_concat]
    rfl

/-- Witness for C9: publish on the freshly started queue. -/
theorem C9_publish_at_roundtrip_witness :
    initQueue.running = true ∧
    ((Publish initQueue "m1" 5 [1, 2, 3]).2 = none ∧
    getMessageAtOffset (Publish initQueue "m1" 5 [1, 2, 3]).1.log
        (initQueue.log.length : Int) =
      some { ID := "m1", Offset := (initQueue.log.length : Int),
             Payload := [1, 2, 3], Timestamp := 5, Metadata := [] }) :=
  ⟨rfl, C9_publish_at_roundtrip initQueue "m1" 5 [1, 2, 3] rfl⟩

/-- C10: for every frame of type message received by the MQ client, the
Message handed to the application handler carries only the frame's
message-id and payload; its Offset field is the zero value (the
broker-assigned offset in the frame is discarded) and its Timestamp is the
client's receive time. -/
theorem C10_client_message_offset_zero (now : Int) (msg : ProtocolMessage)
    (h : msg.type = MsgTypeMessage) :
    clientHandleMessage now msg =
      some { ID := msg.messageID, Offset := 0, Payload := msg.payload,
             Timestamp := now, Metadata := [] } := by
  unfold clientHandleMessage
  rw [if_pos h]

/-- Witness for C10: a message frame carrying broker offset 42 is handed
over with Offset 0 and the client receive time. -/
theorem C10_client_message_offset_zero_witness :
    ({ type := "message", subscriberID := "", messageID := "u1",
       offset := 42, payload := [7], error := "", success := false } :
        ProtocolMessage).type = MsgTypeMessage ∧
    clientHandleMessage 99
        { type := "message", subscriberID := "", messageID := "u1",
          offset := 42, payload := [7], error := "", success := false } =
      some { ID := "u1", Offset := 0, Payload := [7], Timestamp := 99,
             Metadata := [] } :=
  ⟨rfl, C10_client_message_offset_zero 99
    { type := "message", subscriberID := "", messageID := "u1",
      offset := 42, payload := [7], error := "", success := false } rfl⟩

/-- Appending registry entries does not disturb a failed lookup. -/
theorem lookup_append_of_none {β : Type} (a : String) :
    ∀ (l₁ l₂ : List (String × β)), l₁.lookup a = none →
      (l₁ ++ l₂).lookup a = l₂.lookup a := by
  intro l₁
  induction l₁ with
  | nil => intro l₂ _; rfl
  | cons p l ih =>
    intro l₂ h
    obtain ⟨k, b⟩ := p
    cases hk : a == k with
    | true => simp [List.lookup_cons, hk] at h
    | false =>
      rw [List.cons_append]
      simp only [List.lookup_cons, hk] at h ⊢
      exact ih l₂ h

/-- C2: demonstration of the oversize-frame behavior of handleClient at the
failing input: a frame declaring length 10 MiB + 1 (header bytes
0x00 0xA0 0x00 0x01). The read-loop step yields `skip` — the connection is
NOT closed, the frame body is not consumed (the trailing bytes 7, 7 stay in
the stream, now desynchronized), and nothing is dispatched, so nothing can
reach the log. The claim (and spec §4.3/§7) requires the connection to be
closed. -/
theorem C2_oversize_frame_not_closed :
    handleClientStep (fun _ => none) ([0, 160, 0, 1] ++ [7, 7]) =
      ClientStep.skip [7, 7] ∧
    (0 : Nat) * 2 ^ 24 + 160 * 2 ^ 16 + 0 * 2 ^ 8 + 1 =
      10 * 1024 * 1024 + 1 ∧
    ClientStep.skip [7, 7] ≠ ClientStep.closeConn := by
  refine ⟨rfl, by norm_num, by decide⟩

/-- A broker state in which connection 0 is subscribed as c1 and the queue
registry holds c1 (as after a successful subscribe). Used by C3. -/
def exampleServerC3 : ServerState :=
  { queue := (Subscribe initQueue "c1" (-1) (fun _ => true)).1,
    clients := [(0, { subscriberID := "c1", subscribed := true })] }

/-- C3: code-bug demonstration at the failing input: connection 0,
subscribed as c1, terminates without an unsubscribe frame. The cleanup
defer of handleClient removes the connection state but never calls
Unsubscribe, so the registry still contains c1 afterwards — while an
explicit unsubscribe frame on the same state does remove c1. The claim
(and spec §4.3) requires the registry entry to be gone in both cases. -/
theorem C3_disconnect_keeps_registry_entry :
    ((handleClientCleanup exampleServerC3 0).clients.lookup 0 = none) ∧
    (((handleClientCleanup exampleServerC3 0).queue.subscribers.lookup
        "c1").isSome = true) ∧
    (((handleUnsubscribe exampleServerC3 0
        { type := "unsubscribe", subscriberID := "c1", messageID := "",
          offset := 0, payload := [], error := "", success := false
        }).1.queue.subscribers.lookup "c1") = none) :=
  ⟨rfl, rfl, rfl⟩

/-- A broker state with a two-message log and one fresh connection. Used by
the C4 counterexample. -/
def exampleServerC4 : ServerState :=
  { queue := runOps [QueueOp.publish "m0" 0 [0], QueueOp.publish "m1" 0 [1]],
    clients := [(0, { subscriberID := "", subscribed := false })] }

/-- C4 counterexample: a subscribe frame explicitly carrying offset 0
(a value k ≥ 0) on a broker whose log has length 2 registers the
subscriber at cursor 2 (LATEST), not at the specific offset 0. -/
theorem C4_zero_offset_counterexample :
    ((handleSubscribe exampleServerC4 0 "addr"
        { type := "subscribe", subscriberID := "c1", messageID := "",
          offset := 0, payload := [], error := "", success := false }
        (fun _ => true)).1.queue.subscribers.lookup "c1").map
      Subscriber.offset = some 2 ∧
    (2 : Int) ≠ 0 :=
  ⟨rfl, by decide⟩

/-- C4 amended: a subscribe frame whose decoded offset is nonzero registers
the subscriber at that offset verbatim (resolved/clamped against the log by
Subscribe); any frame whose offset field decodes to 0 — the JSON zero
default, whether the field was omitted or an explicit 0 — is mapped to
LATEST and registers at the current log length, so a specific offset 0
cannot be requested over the wire. -/
theorem C4_offset_dispatch_amended (s : ServerState) (conn : Nat)
    (remoteAddr : String) (msg : ProtocolMessage)
    (connHandler : Message → Bool) (cst : ClientState)
    (hconn : s.clients.lookup conn = some cst)
    (hid : ¬ msg.subscriberID = "")
    (hfresh : s.queue.subscribers.lookup msg.subscriberID = none) :
    ((handleSubscribe s conn remoteAddr msg
        connHandler).1.queue.subscribers.lookup msg.subscriberID).map
      Subscriber.offset =
      some (if msg.offset = 0 then (s.queue.log.length : Int)
            else resolveOffset s.queue.log msg.offset) := by
  unfold handleSubscribe
  simp only [hconn, if_neg hid]
  unfold Subscribe
  simp only [hfresh, Option.isSome_none, Bool.false_eq_true, if_false]
  simp only [lookup_append_of_none _ _ _ hfresh, List.lookup_cons,
    beq_self_eq_true, Option.map_some']
  by_cases h0 : msg.offset = 0
  · simp only [h0, subscribeStartOffset, if_pos rfl]
    unfold resolveOffset OffsetEarliest OffsetLatest
    norm_num
  · simp only [subscribeStartOffset, if_neg h0, if_neg h0]

/-- Witness for C4's amended theorem: subscribing with explicit offset 1 on
the two-message broker registers at cursor 1. -/
theorem C4_offset_dispatch_amended_witness :
    exampleServerC4.clients.lookup 0 =
      some { subscriberID := "", subscribed := false } ∧
    ¬ ({ type := "subscribe", subscriberID := "c1", messageID := "",
         offset := 1, payload := [], error := "", success := false } :
          ProtocolMessage).subscriberID = "" ∧
    exampleServerC4.queue.subscribers.lookup "c1" = none ∧
    ((handleSubscribe exampleServerC4 0 "addr"
        { type := "subscribe", subscriberID := "c1", messageID := "",
          offset := 1, payload := [], error := "", success := false }
        (fun _ => true)).1.queue.subscribers.lookup "c1").map
      Subscriber.offset =
      some (if (1 : Int) = 0 then (exampleServerC4.queue.log.length : Int)
            else resolveOffset exampleServerC4.queue.log 1) :=
  ⟨rfl, by decide, rfl,
    C4_offset_dispatch_amended exampleServerC4 0 "addr"
      { type := "subscribe", subscriberID := "c1", messageID := "",
        offset := 1, payload := [], error := "", success := false }
      (fun _ => true) { subscriberID := "", subscribed := false }
      rfl (by decide) rfl⟩

end TelemetryMQ
